import Mathlib

/-!
Shallow embedding of the Max-Cut notebook `Amazon-Braket-MaximumCut.ipynb`.

The notebook builds a 5-node `networkx` graph `G`, converts its edges into a
QUBO coefficient dictionary `Q` (a Python `defaultdict(int)`), dispatches
`Q` to a remote sampler via `sampler.sample_qubo(Q, chain_strength=chainstrength,
num_reads=numruns)`, and renders the returned sample as a two-colored graph.
Here the pure parts of that program are embedded as executable Lean
definitions; the external sampler call is modelled only by the record of
arguments the notebook passes to it.
-/

namespace MaxCut

/-- A `networkx.Graph`, reduced to what the notebook observes of it:
the node list and the edge list, each in insertion order.  For this
notebook's fixed insertion sequence, `networkx`'s adjacency-based
reporting order of `G.nodes` and `G.edges` coincides with insertion
order, so insertion-ordered lists are a faithful model. -/
structure Graph where
  nodes : List Nat
  edges : List (Nat × Nat)
  deriving Repr, DecidableEq

/-- Add a node if it is not already present (as `nx.Graph.add_edge` does
for each endpoint). -/
def addNode (g : Graph) (n : Nat) : Graph :=
  if n ∈ g.nodes then g else { g with nodes := g.nodes ++ [n] }

/-- Whether the undirected edge between `u` and `v` is already present,
in either stored orientation. -/
def hasEdge (g : Graph) (u v : Nat) : Bool :=
  g.edges.any (fun e => (e.1 == u && e.2 == v) || (e.1 == v && e.2 == u))

/-- `nx.Graph.add_edge u v`: inserts both endpoints as nodes, then the
undirected edge, stored in the orientation `(u, v)` it was given. -/
def addEdge (g : Graph) (u v : Nat) : Graph :=
  let g1 := addNode (addNode g u) v
  if hasEdge g1 u v then g1 else { g1 with edges := g1.edges ++ [(u, v)] }

/-- `nx.Graph.add_edges_from`: folds `add_edge` over the given list. -/
def addEdgesFrom (g : Graph) (es : List (Nat × Nat)) : Graph :=
  es.foldl (fun g e => addEdge g e.1 e.2) g

/-- The edge literal of the notebook:
`G.add_edges_from([(1,2),(1,3),(2,4),(3,4),(3,5),(4,5)])`. -/
def edgeLiteral : List (Nat × Nat) :=
  [(1, 2), (1, 3), (2, 4), (3, 4), (3, 5), (4, 5)]

/-- `G = nx.Graph()` followed by `G.add_edges_from(edgeLiteral)`. -/
def G : Graph := addEdgesFrom ⟨[], []⟩ edgeLiteral

/-- Degree of a node: the number of incident edges (the graph has no
self-loops, so counting edges with `n` as either endpoint is exact). -/
def degree (g : Graph) (n : Nat) : Nat :=
  (g.edges.filter (fun e => e.1 == n || e.2 == n)).length

/-- The QUBO dictionary `Q = defaultdict(int)`: an association list from
integer pairs to integers, kept in key-insertion order exactly as a
Python dict is. -/
abbrev Qubo := List ((Nat × Nat) × Int)

/-- `Q[k] += c` on a `defaultdict(int)`: a missing key is first created
with value `0` (hence stored at the end, in insertion order), then `c`
is added to its value. -/
def addTo (q : Qubo) (k : Nat × Nat) (c : Int) : Qubo :=
  if q.any (fun p => p.1 == k) then
    q.map (fun p => if p.1 == k then (p.1, p.2 + c) else p)
  else
    q ++ [(k, c)]

/-- Dictionary lookup with the `defaultdict(int)` default `0` for a key
that is absent. -/
def getQ (q : Qubo) (k : Nat × Nat) : Int :=
  match q.find? (fun p => p.1 == k) with
  | some p => p.2
  | none => 0

/-- The conversion loop of the notebook, a single pass over the edge
list with exactly three dictionary updates per edge:
`for u, v in G.edges: Q[(u,u)] += -1; Q[(v,v)] += -1; Q[(u,v)] += 2`. -/
def buildQ (es : List (Nat × Nat)) : Qubo :=
  es.foldl
    (fun q e => addTo (addTo (addTo q (e.1, e.1) (-1)) (e.2, e.2) (-1)) (e.1, e.2) 2)
    []

/-- The notebook's `Q` after the conversion loop over `G.edges`. -/
def Q : Qubo := buildQ G.edges

/-- Python truthiness of a binary value as an integer factor. -/
def b2i (b : Bool) : Int := if b then 1 else 0

/-- The QUBO objective of an assignment `x` of `0`/`1` (here `false`/`true`)
to each node: the sum over all keys `(i, j)` of `Q` of `Q[(i,j)] * x_i * x_j`. -/
def quboVal (q : Qubo) (x : Nat → Bool) : Int :=
  q.foldl (fun acc p => acc + p.2 * b2i (x p.1.1) * b2i (x p.1.2)) 0

/-- `cut_edges = [(u, v) for u, v in G.edges if lut[u] != lut[v]]`. -/
def cut_edges (g : Graph) (lut : Nat → Bool) : List (Nat × Nat) :=
  g.edges.filter (fun e => lut e.1 != lut e.2)

/-- `uncut_edges = [(u, v) for u, v in G.edges if lut[u] == lut[v]]`. -/
def uncut_edges (g : Graph) (lut : Nat → Bool) : List (Nat × Nat) :=
  g.edges.filter (fun e => lut e.1 == lut e.2)

/-- The cut size of the partition induced by an assignment: the number of
edges whose endpoints get different values. -/
def cutSize (g : Graph) (x : Nat → Bool) : Nat :=
  (cut_edges g x).length

/-- `S0 = [node for node in G.nodes if not lut[node]]`. -/
def S0 (g : Graph) (lut : Nat → Bool) : List Nat :=
  g.nodes.filter (fun n => !(lut n))

/-- `S1 = [node for node in G.nodes if lut[node]]`. -/
def S1 (g : Graph) (lut : Nat → Bool) : List Nat :=
  g.nodes.filter (fun n => lut n)

/-- `chainstrength = 8` in the notebook's dispatch cell. -/
def chainstrength : Int := 8

/-- `numruns = 10` in the notebook's dispatch cell. -/
def numruns : Nat := 10

/-- The arguments of a `sampler.sample_qubo` call.  `chain_strength` is
`some c` when the caller passes `chain_strength=c` of its own, `none`
when the caller omits it and leaves the choice to the sampler stack. -/
structure SampleQuboCall where
  qubo : Qubo
  chain_strength : Option Int
  num_reads : Option Nat
  deriving Repr, DecidableEq

/-- The notebook's dispatch:
`response = sampler.sample_qubo(Q, chain_strength=chainstrength, num_reads=numruns)`,
with `Q` untouched between the conversion loop and this call. -/
def dispatchCall : SampleQuboCall :=
  { qubo := Q, chain_strength := some chainstrength, num_reads := some numruns }

/-- `G` evaluated: nodes in insertion order. -/
theorem G_nodes_eq : G.nodes = [1, 2, 3, 4, 5] := by decide

/-- `G` evaluated: edges in insertion order. -/
theorem G_edges_eq : G.edges = edgeLiteral := by decide

/-- `Q` evaluated to its literal association list, keys in insertion order. -/
theorem Q_eq :
    Q = [((1, 1), -2), ((2, 2), -2), ((1, 2), 2), ((3, 3), -3), ((1, 3), 2),
         ((4, 4), -3), ((2, 4), 2), ((3, 4), 2), ((5, 5), -2), ((3, 5), 2),
         ((4, 5), 2)] := by decide

/-- Helper: the QUBO objective of any assignment is minus its cut size.
Both sides depend on the assignment only at the five nodes, so a case
split on those values settles it. -/
theorem quboVal_eq_neg_cutSize (x : Nat → Bool) :
    quboVal Q x = -(cutSize G x : Int) := by
  cases h1 : x 1 <;> cases h2 : x 2 <;> cases h3 : x 3 <;> cases h4 : x 4 <;>
    cases h5 : x 5 <;>
    simp [quboVal, cutSize, cut_edges, b2i, Q_eq, G_edges_eq, edgeLiteral,
      h1, h2, h3, h4, h5]

/-- Helper: no assignment cuts more than 5 of the 6 edges. -/
theorem cutSize_le_five (x : Nat → Bool) : cutSize G x ≤ 5 := by
  cases h1 : x 1 <;> cases h2 : x 2 <;> cases h3 : x 3 <;> cases h4 : x 4 <;>
    cases h5 : x 5 <;>
    simp [cutSize, cut_edges, G_edges_eq, edgeLiteral, h1, h2, h3, h4, h5]

/-- C1: for every assignment `x` of `0`/`1` to the nodes, the QUBO
objective `∑ Q[(i,j)] * x_i * x_j` equals minus the number of edges of
`G` whose endpoints are assigned different values (the cut size of the
partition induced by `x`). -/
theorem qubo_objective_is_neg_cut (x : Nat → Bool) :
    quboVal Q x = -(cutSize G x : Int) :=
  quboVal_eq_neg_cutSize x

/-- C2: the conversion is the single fold of three updates per edge, and
after it every diagonal entry `Q[(i,i)]` is minus the degree of `i`,
every listed edge `(u,v)` has `Q[(u,v)] = 2`, and every entry of `Q`
with a nonzero value is one of those keys. -/
theorem conversion_loop_post :
    Q = G.edges.foldl
        (fun q e =>
          addTo (addTo (addTo q (e.1, e.1) (-1)) (e.2, e.2) (-1)) (e.1, e.2) 2)
        [] ∧
    (∀ i ∈ G.nodes, getQ Q (i, i) = -(degree G i : Int)) ∧
    (∀ e ∈ G.edges, getQ Q e = 2) ∧
    (∀ p ∈ Q, p.2 ≠ 0 →
      p.1 ∈ G.nodes.map (fun i => (i, i)) ∨ p.1 ∈ G.edges) := by
  refine ⟨rfl, ?_, ?_, ?_⟩ <;> decide

/-- C3: the constructed graph has exactly the nodes `1..5` and exactly
the six listed undirected edges, in the listed orientation; being a
closed definition built from a fixed literal, it is the same constant
(and hence so is `Q`) on every run. -/
theorem graph_is_fixed_literal :
    G.nodes = [1, 2, 3, 4, 5] ∧ G.nodes.length = 5 ∧
    G.edges = [(1, 2), (1, 3), (2, 4), (3, 4), (3, 5), (4, 5)] ∧
    G.edges.length = 6 := by
  decide

/-- C9: after the conversion loop `Q` has exactly 11 keys: the five
diagonal keys `(i,i)` for the nodes and one key per edge in the listed
orientation; no reversed key `(v,u)` is present, so `Q` as a mapping is
not symmetric even though the graph is undirected. -/
theorem q_keys_exactly :
    Q.length = 11 ∧
    (∀ i ∈ G.nodes, (i, i) ∈ Q.map (fun p => p.1)) ∧
    (∀ e ∈ G.edges, e ∈ Q.map (fun p => p.1)) ∧
    (∀ p ∈ Q, p.1 ∈ G.nodes.map (fun i => (i, i)) ∨ p.1 ∈ G.edges) ∧
    (∀ e ∈ G.edges, (e.2, e.1) ∉ Q.map (fun p => p.1)) := by
  refine ⟨rfl, ?_, ?_, ?_, ?_⟩ <;> decide

/-- C4: for every sample `lut` assigning each node a binary value, the
rendered node lists `S0` and `S1` partition `G.nodes` (disjoint, union
everything), and `cut_edges` and `uncut_edges` partition `G.edges`. -/
theorem render_lists_partition (lut : Nat → Bool) :
    (∀ n, (n ∈ S0 G lut ∨ n ∈ S1 G lut) ↔ n ∈ G.nodes) ∧
    (∀ n, ¬(n ∈ S0 G lut ∧ n ∈ S1 G lut)) ∧
    (∀ e, (e ∈ cut_edges G lut ∨ e ∈ uncut_edges G lut) ↔ e ∈ G.edges) ∧
    (∀ e, ¬(e ∈ cut_edges G lut ∧ e ∈ uncut_edges G lut)) := by
  refine ⟨?_, ?_, ?_, ?_⟩
  · intro n
    cases h : lut n <;> simp [S0, S1, List.mem_filter, h]
  · intro n
    cases h : lut n <;> simp [S0, S1, List.mem_filter, h]
  · intro e
    cases h1 : lut e.1 <;> cases h2 : lut e.2 <;>
      simp [cut_edges, uncut_edges, List.mem_filter, h1, h2]
  · intro e
    cases h1 : lut e.1 <;> cases h2 : lut e.2 <;>
      simp [cut_edges, uncut_edges, List.mem_filter, h1, h2]

/-- C5 counterexample: the dispatch does pass a chain strength chosen by
the notebook itself, so the claim that the repository performs no
chain-strength selection of its own is false. -/
theorem chain_strength_is_selected_locally :
    ¬ dispatchCall.chain_strength = none := by
  decide

/-- C5 amended: annealing and embedding are delegated to the external
sampler stack, but the notebook does select a chain strength of its own:
it hardcodes `chainstrength = 8` and passes it as the `chain_strength`
argument of `sampler.sample_qubo`, together with `num_reads = 10`. -/
theorem chain_strength_hardcoded_eight :
    dispatchCall.chain_strength = some chainstrength ∧ chainstrength = 8 ∧
    dispatchCall.num_reads = some numruns ∧ numruns = 10 := by
  refine ⟨rfl, rfl, rfl, rfl⟩

/-- C6: the `Q` argument passed to `sampler.sample_qubo` is exactly the
mapping produced by the edge-conversion loop; nothing modifies it in
between. -/
theorem dispatched_qubo_is_built_qubo :
    dispatchCall.qubo = buildQ G.edges ∧ dispatchCall.qubo = Q :=
  ⟨rfl, rfl⟩

/-- C7: over all binary assignments of the 5 nodes the minimum QUBO
objective is `-5`: no assignment goes below `-5`, the partition
`{2,3}` versus `{1,4,5}` attains cut size `5` (objective `-5`), and no
partition cuts all 6 edges. -/
theorem maxcut_optimum_is_five :
    (∀ x : Nat → Bool, -5 ≤ quboVal Q x) ∧
    (∀ x : Nat → Bool, cutSize G x ≤ 5) ∧
    cutSize G (fun n => n == 2 || n == 3) = 5 ∧
    quboVal Q (fun n => n == 2 || n == 3) = -5 ∧
    S0 G (fun n => n == 2 || n == 3) = [1, 4, 5] ∧
    S1 G (fun n => n == 2 || n == 3) = [2, 3] ∧
    (∀ x : Nat → Bool, cutSize G x ≠ 6) := by
  refine ⟨?_, cutSize_le_five, by decide, by decide, by decide, by decide, ?_⟩
  · intro x
    have h := quboVal_eq_neg_cutSize x
    have hle := cutSize_le_five x
    omega
  · intro x
    have hle := cutSize_le_five x
    omega

/-- C8: each printed row shows `int(-1*E)` as its cut size; whenever the
energy `E` drawn for a row is the QUBO objective of that row's sample
(the stated iteration-order precondition), that printed number equals
the number of edges of `G` cut by the row's `Set 0` / `Set 1`
partition. -/
theorem printed_cut_size_correct (x : Nat → Bool) (E : Int)
    (h : E = quboVal Q x) :
    ((-1) * E).toNat = cutSize G x := by
  subst h
  have hq := quboVal_eq_neg_cutSize x
  omega

/-- Witness for C8 at the concrete sample putting nodes 2 and 3 in set 1,
whose QUBO objective is `-5`. -/
theorem printed_cut_size_correct_witness :
    ((-1) * (-5 : Int)).toNat = cutSize G (fun n => n == 2 || n == 3) :=
  printed_cut_size_correct (fun n => n == 2 || n == 3) (-5) (by decide)

end MaxCut
